import Mathlib

/-!
Verification of the OCR patient-information extraction service (`src/app.py`).

The Python service scans a PDF page by page, OCRs each page, selects the
first page whose text contains every hospital-specific keyword
(case-insensitively), and then runs an extractive QA model per requested
attribute over the selected page's text.

Shallow embedding conventions:
* Python strings are Lean `String`s; character-level operations
  (`str.split`, `str.strip`, `str.lower`, the `in` substring test,
  `str.join`) are modelled on `String.data` (the underlying `List Char`).
* A page of the document is modelled by the list of OCR line texts the OCR
  engine returns for it (`result[0]` with each `line[1][0]` in the code);
  an empty list models `not result or not result[0]`.
* The QA model is a parameter `qa : String → String → Option (Option String)`:
  `none` models the invocation raising an exception, `some none` models a
  response dictionary without an `answer` key, `some (some a)` models a
  response whose `answer` is `a`.
* The Excel config stores are parameters: a list of rows
  `(hospital id, comma-separated cell)`; `pandas` row matching by equality
  on the id column is `List.find?`.
-/

/-- Python `s.split(sep)` on character lists, accumulator for the current
piece (kept reversed).  Keeps empty pieces, exactly like Python. -/
def pySplitAux (sep : Char) : List Char → List Char → List (List Char)
  | [], acc => [acc.reverse]
  | c :: rest, acc =>
    if c = sep then acc.reverse :: pySplitAux sep rest []
    else pySplitAux sep rest (c :: acc)

/-- Python `s.split(sep)` (single-character separator, empties kept). -/
def pySplit (sep : Char) (s : List Char) : List (List Char) :=
  pySplitAux sep s []

/-- Python `s.strip()`: drop whitespace from both ends. -/
def pyStrip (l : List Char) : List Char :=
  ((l.dropWhile Char.isWhitespace).reverse.dropWhile Char.isWhitespace).reverse

/-- Python `s.strip()` packaged on `String`. -/
def pyStripStr (s : String) : String :=
  String.mk (pyStrip s.data)

/-- `[piece.strip() for piece in s.split(',')]` — the comma-separated cell
parsing used for `Keywords` (app.py line 43) and `Requested_attributes`
(line 174) and the request's `requested_attributes` form field (line 132). -/
def pyParseCsv (s : String) : List String :=
  (pySplit ',' s.data).map (fun piece => String.mk (pyStrip piece))

/-- Python `s.lower()` (character-wise lowercasing). -/
def pyLower (s : String) : String :=
  String.mk (s.data.map Char.toLower)

/-- Python `sep.join(pieces)`. -/
def pyJoin (sep : String) : List String → String
  | [] => ""
  | x :: xs => xs.foldl (fun acc y => acc ++ sep ++ y) x

/-- Does `h` start with `n`?  (helper for the Python substring test) -/
def startsWithChars : List Char → List Char → Bool
  | _, [] => true
  | [], _ :: _ => false
  | c :: cs, d :: ds => c = d && startsWithChars cs ds

/-- Is `n` a contiguous substring of `h`?  (helper for Python `in`) -/
def containsSubChars : List Char → List Char → Bool
  | [], n => n.isEmpty
  | c :: t, n => startsWithChars (c :: t) n || containsSubChars t n

/-- Python `needle in haystack` on strings (substring containment). -/
def pyIn (needle haystack : String) : Bool :=
  containsSubChars haystack.data needle.data

/-- The keyword gate of app.py lines 74 and 208:
`all(keyword.lower() in extracted_text.lower() for keyword in keywords)`. -/
def keywordGate (keywords : List String) (extracted_text : String) : Bool :=
  keywords.all (fun keyword => pyIn (pyLower keyword) (pyLower extracted_text))

/-- Observable outcome of the page-scan loop (app.py lines 61-79 / 195-249):
which pages were rasterized-and-OCR'd (in order), which temporary image
files exist after the loop (the code never deletes them), and the selected
page, if any, with its extracted text. -/
structure ScanOut where
  processed : List Nat
  tempFiles : List String
  result : Option (Nat × String)
deriving DecidableEq

/-- `f"temp_page_{page_num}.png"` (app.py lines 64 / 198, where the code
passes `page_num + 1` for 0-based `page_num`). -/
def tempImagePath (page_num : Nat) : String :=
  "temp_page_" ++ Nat.repr page_num ++ ".png"

/-- The page-scan loop of app.py lines 61-79 (identical in lines 195-208),
started at page index `i`.  Every visited page is rasterized to
`temp_page_{i+1}.png` and OCR'd; a page whose OCR result has no lines is
skipped (`continue`); otherwise the line texts are joined with single
spaces and the keyword gate is applied; the loop returns at the first
passing page.  No temporary file is ever removed. -/
def scanPagesAux (keywords : List String) (i : Nat) : List (List String) → ScanOut
  | [] => ⟨[], [], none⟩
  | lines :: rest =>
    if lines.isEmpty then
      let o := scanPagesAux keywords (i + 1) rest
      ⟨i :: o.processed, tempImagePath (i + 1) :: o.tempFiles, o.result⟩
    else
      let extracted_text := pyJoin " " lines
      if keywordGate keywords extracted_text then
        ⟨[i], [tempImagePath (i + 1)], some (i, extracted_text)⟩
      else
        let o := scanPagesAux keywords (i + 1) rest
        ⟨i :: o.processed, tempImagePath (i + 1) :: o.tempFiles, o.result⟩

/-- The selected page (index and extracted text) of the scan loop, from
page 0 — the value the code acts on. -/
def scanPages (keywords : List String) (pages : List (List String)) :
    Option (Nat × String) :=
  (scanPagesAux keywords 0 pages).result

/-- Modelled from the spec (§4.2/§4.3), for comparison with `scanPages`:
the spec's Page Text Source yields a PageText with empty text when the OCR
engine returns no recognized lines, and the Page Selector then evaluates
the keyword gate on that empty text like on any other page. -/
def scanPagesSpecAux (keywords : List String) (i : Nat) :
    List (List String) → Option (Nat × String)
  | [] => none
  | lines :: rest =>
    let text := pyJoin " " lines
    if keywordGate keywords text then some (i, text)
    else scanPagesSpecAux keywords (i + 1) rest

/-- Spec-modelled selector (see `scanPagesSpecAux`), from page 0. -/
def scanPagesSpec (keywords : List String) (pages : List (List String)) :
    Option (Nat × String) :=
  scanPagesSpecAux keywords 0 pages

/-- Python `dict` assignment `d[k] = v`: overwrite an existing key in
place, else append at the end (insertion order preserved). -/
def dictInsert : List (String × String) → String → String → List (String × String)
  | [], k, v => [(k, v)]
  | p :: rest, k, v =>
    if p.1 = k then (k, v) :: rest else p :: dictInsert rest k v

/-- Python `d.get(k)` / key lookup on the association-list model. -/
def dictGet : List (String × String) → String → Option String
  | [], _ => none
  | p :: rest, k => if p.1 = k then some p.2 else dictGet rest k

/-- The per-attribute answer handling of app.py lines 101-107 / 238-244:
`answer = response.get("answer", "NULL")`, store `answer` if
`answer.strip()` is truthy else `"NULL"`; an exception (`none`) also
stores `"NULL"`. -/
def storeValue (response : Option (Option String)) : String :=
  match response with
  | none => "NULL"
  | some r =>
    let answer := r.getD "NULL"
    if pyStripStr answer = "" then "NULL" else answer

/-- The `questions` dict of `extract_information_with_qa_model`
(app.py lines 83-95). -/
def questions_v1 : List (String × String) :=
  [("Patient Name", "What is the full name of the patient mentioned in the context?"),
   ("Age", "What is the age of the patient? Provide only the number."),
   ("Gender", "What is the gender of the patient?"),
   ("Admission Date", "What is the exact admission date of the patient in 'dd/mm/yyyy' format?"),
   ("Discharge Date", "What is the exact Discharge date of the patient in 'dd/mm/yyyy' format?"),
   ("UHID Number", "What is the UHID (unique hospital identification number) of the patient?"),
   ("IPD Number", "What is the IPD (in-patient department) number of the patient?"),
   ("IP Number", "What is the IP number of the patient?"),
   ("MR Number", "What is the MR number of the patient?"),
   ("UMR Number", "What is the UMR number of the patient?"),
   ("Doctor Name", "What is the Doctor Name who is treating the patient, given in the context")]

/-- The `questions` dict inside `extract_patient_info_optimized`
(app.py lines 213-232). -/
def questions_v2 : List (String × String) :=
  [("Patient Name", "What is the full name of the patient mentioned in the context?"),
   ("Age", "What is the age of the patient? Provide only the number."),
   ("Gender", "What is the gender or sex of the patient? Provide the value explicitly mentioned in the context."),
   ("Admission Date", "What is the exact admission date of the patient in 'dd/mm/yyyy' format?"),
   ("Discharge Date", "What is the exact Discharge date of the patient in 'dd/mm/yyyy' format?"),
   ("UHID Number", "What is the UHID (unique hospital identification number) of the patient?"),
   ("IP Number", "What is the IP number of the patient?"),
   ("MR Number", "What is the MR number of the patient?"),
   ("UMR Number", "What is the UMR number of the patient?"),
   ("Admission Number", "What is the Admission Number explicitly mentioned in the context? The Admission Number might be referred to as 'Admn No' or 'Admission Number.' It should be a value that starts with 'IP-' followed by digits (e.g., 'IP-2023055711'). If there are multiple similar-looking attributes, such as 'UMR NO,' ignore them and extract only the Admission Number. If not mentioned, return 'NULL' without making any assumptions."),
   ("Patient Number", "What is the Patient Number explicitly mentioned in the context? If not mentioned, return 'NULL' without making any assumptions."),
   ("Doctor Name", "What is the Doctor Name who is treating the patient, given in the context")]

/-- Loop body of the all-questions loop of app.py lines 100-108:
run the QA model on one `(key, question)` pair and store the normalized
answer under `key`. -/
def qaStepAll (qa : String → String → Option (Option String)) (context : String)
    (acc : List (String × String)) (kq : String × String) : List (String × String) :=
  dictInsert acc kq.1 (storeValue (qa kq.2 context))

/-- `extract_information_with_qa_model(context, requested_attributes)`
(app.py lines 81-114): answer every question of `questions_v1`, then keep
only the entries whose key is in `requested_attributes`. -/
def extract_information_with_qa_model (qa : String → String → Option (Option String))
    (context : String) (requested_attributes : List String) : List (String × String) :=
  let extracted_info := questions_v1.foldl (qaStepAll qa context) []
  extracted_info.filter (fun p => requested_attributes.contains p.1)

/-- Loop body of the selected-attributes loop of app.py lines 235-245:
look the attribute's question up in the questions dict; if present, run
the QA model and store the normalized answer; if absent, do nothing. -/
def qaStepSelected (qa : String → String → Option (Option String))
    (questions : List (String × String)) (context : String)
    (acc : List (String × String)) (attr : String) : List (String × String) :=
  match dictGet questions attr with
  | some question => dictInsert acc attr (storeValue (qa question context))
  | none => acc

/-- The per-requested-attribute QA loop inside
`extract_patient_info_optimized` (app.py lines 210-245) on the matched
page's text. -/
def extract_patient_info_optimized_qa (qa : String → String → Option (Option String))
    (requested_attributes_list : List String) (context : String) : List (String × String) :=
  requested_attributes_list.foldl (qaStepSelected qa questions_v2 context) []

/-- `load_keywords_from_excel(hospital_code)` (app.py lines 32-49) with the
Excel sheet as an explicit row list `(Hospital ID, Keywords cell)`.  Both
the no-matching-row branch and the exception branch return `[]`. -/
def load_keywords_from_excel (store : List (String × String))
    (hospital_code : String) : List String :=
  match store.find? (fun row => row.1 == hospital_code) with
  | some row => pyParseCsv row.2
  | none => []

/-- `extract_text_from_pdf(pdf_file, hospital_code, requested_attributes)`
(app.py lines 52-79): load keywords, return `None` when the list is empty,
else scan the pages and on the first gate match run
`extract_information_with_qa_model` on that page's text. -/
def extract_text_from_pdf (store : List (String × String))
    (qa : String → String → Option (Option String))
    (pages : List (List String)) (hospital_code : String)
    (requested_attributes : List String) : Option (List (String × String)) :=
  let keywords := load_keywords_from_excel store hospital_code
  if keywords.isEmpty then none
  else
    match scanPages keywords pages with
    | some it => some (extract_information_with_qa_model qa it.2 requested_attributes)
    | none => none

/-- `file.filename.split('P')[0]` (app.py lines 128 / 158). -/
def hospitalCodeOf (filename : String) : String :=
  String.mk ((pySplit 'P' filename.data).headD [])

/-- Body of a `JSONResponse`: either the extracted-info dict or a
`{"message": ...}` payload. -/
inductive RespBody where
  | info (d : List (String × String))
  | msg (s : String)
deriving DecidableEq

/-- An HTTP response of the service: status code plus body. -/
structure Resp where
  status : Nat
  body : RespBody
deriving DecidableEq

/-- The `/extract-patient-info/` endpoint (app.py lines 121-152), with the
keyword store, the QA model and the OCR'd pages as parameters: derive the
hospital code from the filename, parse the requested attributes, call
`extract_text_from_pdf`, and return its dict with status 200 when it is
truthy, else the generic 404 message. -/
def extract_patient_info (store : List (String × String))
    (qa : String → String → Option (Option String))
    (filename : String) (requested_attributes : String)
    (pages : List (List String)) : Resp :=
  let hospital_code := hospitalCodeOf filename
  let requested_attributes_list := pyParseCsv requested_attributes
  match extract_text_from_pdf store qa pages hospital_code requested_attributes_list with
  | some extracted_info =>
    if extracted_info.isEmpty then Resp.mk 404 (RespBody.msg "No relevant information found.")
    else Resp.mk 200 (RespBody.info extracted_info)
  | none => Resp.mk 404 (RespBody.msg "No relevant information found.")

/-! ### Helper lemmas: the Python substring test -/

theorem startsWithChars_iff : ∀ (h n : List Char),
    startsWithChars h n = true ↔ n <+: h := by
  intro h
  induction h with
  | nil =>
    intro n
    cases n with
    | nil => simp [startsWithChars]
    | cons d ds => simp [startsWithChars]
  | cons c cs ih =>
    intro n
    cases n with
    | nil => simp [startsWithChars, List.nil_prefix]
    | cons d ds =>
      simp only [startsWithChars, Bool.and_eq_true, decide_eq_true_eq,
        List.cons_prefix_cons, ih ds]
      tauto

theorem containsSubChars_iff : ∀ (h n : List Char),
    containsSubChars h n = true ↔ n <:+: h := by
  intro h
  induction h with
  | nil =>
    intro n
    simp [containsSubChars, List.infix_nil, List.isEmpty_iff]
  | cons c t ih =>
    intro n
    simp only [containsSubChars, Bool.or_eq_true, startsWithChars_iff, ih,
      List.infix_cons_iff]

theorem pyIn_iff (needle haystack : String) :
    pyIn needle haystack = true ↔ needle.data <:+: haystack.data := by
  simpa [pyIn] using containsSubChars_iff haystack.data needle.data

theorem keywordGate_iff (keywords : List String) (text : String) :
    keywordGate keywords text = true ↔
      ∀ k ∈ keywords, (pyLower k).data <:+: (pyLower text).data := by
  simp only [keywordGate, List.all_eq_true, pyIn_iff]

/-! ### Helper lemmas: the page-scan loop -/

theorem scanPagesAux_eq_spec_of_no_empty (keywords : List String) :
    ∀ (pages : List (List String)) (i : Nat),
      (∀ lines ∈ pages, lines ≠ []) →
      (scanPagesAux keywords i pages).result = scanPagesSpecAux keywords i pages := by
  intro pages
  induction pages with
  | nil => intro i _; simp [scanPagesAux, scanPagesSpecAux]
  | cons lines rest ih =>
    intro i hp
    have hne : lines ≠ [] := hp lines (List.mem_cons_self _ _)
    have hrest : ∀ l ∈ rest, l ≠ [] := fun l hl => hp l (List.mem_cons_of_mem _ hl)
    simp only [scanPagesAux, scanPagesSpecAux, List.isEmpty_iff, if_neg hne]
    by_cases hg : keywordGate keywords (pyJoin " " lines) = true
    · simp [hg]
    · simp only [Bool.not_eq_true] at hg
      simp [hg, ih (i + 1) hrest]

theorem keywordGate_empty_eq_false (keywords : List String)
    (h : ∃ k ∈ keywords, k ≠ "") : keywordGate keywords "" = false := by
  obtain ⟨k, hk, hne⟩ := h
  have hdata : k.data ≠ [] := by
    intro hd
    apply hne
    cases k
    simp only [String.data] at hd
    simp [hd]
  rw [Bool.eq_false_iff]
  intro hall
  rw [keywordGate_iff] at hall
  have := hall k hk
  have hlow : (pyLower "").data = ([] : List Char) := rfl
  rw [hlow, List.infix_nil] at this
  have hmap : k.data.map Char.toLower = [] := this
  exact hdata (List.map_eq_nil_iff.mp hmap)

theorem scanPagesAux_eq_spec_of_nonempty_keyword (keywords : List String)
    (h : ∃ k ∈ keywords, k ≠ "") :
    ∀ (pages : List (List String)) (i : Nat),
      (scanPagesAux keywords i pages).result = scanPagesSpecAux keywords i pages := by
  intro pages
  induction pages with
  | nil => intro i; simp [scanPagesAux, scanPagesSpecAux]
  | cons lines rest ih =>
    intro i
    by_cases hne : lines = []
    · subst hne
      have hg : keywordGate keywords (pyJoin " " []) = false := by
        simpa [pyJoin] using keywordGate_empty_eq_false keywords h
      simp [scanPagesAux, scanPagesSpecAux, hg, ih (i + 1)]
    · simp only [scanPagesAux, scanPagesSpecAux, List.isEmpty_iff, if_neg hne]
      by_cases hg : keywordGate keywords (pyJoin " " lines) = true
      · simp [hg]
      · simp only [Bool.not_eq_true] at hg
        simp [hg, ih (i + 1)]

theorem scanPagesSpecAux_eq_some_iff (keywords : List String) :
    ∀ (pages : List (List String)) (i0 i : Nat) (t : String),
      scanPagesSpecAux keywords i0 pages = some (i, t) ↔
        ∃ j lines, pages.get? j = some lines ∧ i = i0 + j ∧
          t = pyJoin " " lines ∧ keywordGate keywords t = true ∧
          ∀ j', j' < j → ∀ lines', pages.get? j' = some lines' →
            keywordGate keywords (pyJoin " " lines') = false := by
  intro pages
  induction pages with
  | nil =>
    intro i0 i t
    simp [scanPagesSpecAux]
  | cons lines rest ih =>
    intro i0 i t
    by_cases hg : keywordGate keywords (pyJoin " " lines) = true
    · simp only [scanPagesSpecAux, if_pos hg]
      constructor
      · intro h
        rw [Option.some.injEq, Prod.mk.injEq] at h
        obtain ⟨rfl, rfl⟩ := h
        exact ⟨0, lines, by simp, by omega, rfl, hg,
          fun j' hj' => absurd hj' (Nat.not_lt_zero j')⟩
      · rintro ⟨j, lines', hget, rfl, rfl, hgate, hmin⟩
        cases j with
        | zero =>
          rw [List.get?_cons_zero] at hget
          obtain rfl := Option.some.inj hget
          simp
        | succ j'' =>
          have := hmin 0 (Nat.succ_pos _) lines (by simp)
          rw [this] at hg
          exact absurd hg (by simp)
    · have hg' : keywordGate keywords (pyJoin " " lines) = false := by
        simpa using hg
      simp only [scanPagesSpecAux, if_neg hg, ih (i0 + 1)]
      constructor
      · rintro ⟨j, lines', hget, hi, ht, hgate, hmin⟩
        refine ⟨j + 1, lines', by simpa using hget, by omega, ht, hgate, ?_⟩
        intro j' hj' l' hget'
        cases j' with
        | zero =>
          rw [List.get?_cons_zero] at hget'
          obtain rfl := Option.some.inj hget'
          exact hg'
        | succ j'' =>
          rw [List.get?_cons_succ] at hget'
          exact hmin j'' (by omega) l' hget'
      · rintro ⟨j, lines', hget, hi, ht, hgate, hmin⟩
        cases j with
        | zero =>
          rw [List.get?_cons_zero] at hget
          obtain rfl := Option.some.inj hget
          subst ht
          rw [hgate] at hg'
          exact absurd hg' (by simp)
        | succ j'' =>
          rw [List.get?_cons_succ] at hget
          refine ⟨j'', lines', hget, by omega, ht, hgate, ?_⟩
          intro j' hj' l' hget'
          exact hmin (j' + 1) (by omega) l' (by simpa using hget')

theorem scanPagesAux_result_ge (keywords : List String) :
    ∀ (pages : List (List String)) (i0 i : Nat) (t : String),
      (scanPagesAux keywords i0 pages).result = some (i, t) → i0 ≤ i := by
  intro pages
  induction pages with
  | nil => intro i0 i t h; simp [scanPagesAux] at h
  | cons lines rest ih =>
    intro i0 i t h
    by_cases hne : lines.isEmpty = true
    · simp only [scanPagesAux, if_pos hne] at h
      exact Nat.le_of_succ_le (ih (i0 + 1) i t h)
    · simp only [scanPagesAux, if_neg hne] at h
      by_cases hg : keywordGate keywords (pyJoin " " lines) = true
      · rw [if_pos hg] at h
        have : i0 = i := congrArg Prod.fst (Option.some.inj h)
        omega
      · rw [if_neg hg] at h
        exact Nat.le_of_succ_le (ih (i0 + 1) i t h)

theorem scanPagesAux_processed_of_some (keywords : List String) :
    ∀ (pages : List (List String)) (i0 i : Nat) (t : String),
      (scanPagesAux keywords i0 pages).result = some (i, t) →
      (scanPagesAux keywords i0 pages).processed = List.range' i0 (i + 1 - i0) := by
  intro pages
  induction pages with
  | nil => intro i0 i t h; simp [scanPagesAux] at h
  | cons lines rest ih =>
    intro i0 i t h
    by_cases hne : lines.isEmpty = true
    · simp only [scanPagesAux, if_pos hne] at h ⊢
      have hge : i0 + 1 ≤ i := scanPagesAux_result_ge keywords rest (i0 + 1) i t h
      rw [ih (i0 + 1) i t h]
      have hn : i + 1 - i0 = (i + 1 - (i0 + 1)) + 1 := by omega
      rw [hn, List.range'_succ]
    · simp only [scanPagesAux, if_neg hne] at h ⊢
      by_cases hg : keywordGate keywords (pyJoin " " lines) = true
      · rw [if_pos hg] at h
        have h0 : i0 = i := congrArg Prod.fst (Option.some.inj h)
        subst h0
        simp [if_pos hg, List.range']
      · rw [if_neg hg] at h ⊢
        have hge : i0 + 1 ≤ i := scanPagesAux_result_ge keywords rest (i0 + 1) i t h
        rw [ih (i0 + 1) i t h]
        have hn : i + 1 - i0 = (i + 1 - (i0 + 1)) + 1 := by omega
        rw [hn, List.range'_succ]

theorem scanPagesAux_processed_range' (keywords : List String) :
    ∀ (pages : List (List String)) (i0 : Nat),
      (scanPagesAux keywords i0 pages).processed =
        List.range' i0 (scanPagesAux keywords i0 pages).processed.length := by
  intro pages
  induction pages with
  | nil => intro i0; simp [scanPagesAux]
  | cons lines rest ih =>
    intro i0
    by_cases hne : lines.isEmpty = true
    · simp only [scanPagesAux, if_pos hne, List.length_cons]
      rw [List.range'_succ, ← ih (i0 + 1)]
    · simp only [scanPagesAux, if_neg hne]
      by_cases hg : keywordGate keywords (pyJoin " " lines) = true
      · simp [if_pos hg, List.range']
      · simp only [if_neg hg, List.length_cons]
        rw [List.range'_succ, ← ih (i0 + 1)]

theorem scanPagesAux_tempFiles_eq (keywords : List String) :
    ∀ (pages : List (List String)) (i0 : Nat),
      (scanPagesAux keywords i0 pages).tempFiles =
        (scanPagesAux keywords i0 pages).processed.map
          (fun page_num => tempImagePath (page_num + 1)) := by
  intro pages
  induction pages with
  | nil => intro i0; simp [scanPagesAux]
  | cons lines rest ih =>
    intro i0
    by_cases hne : lines.isEmpty = true
    · simp only [scanPagesAux, if_pos hne, List.map_cons]
      rw [ih (i0 + 1)]
    · simp only [scanPagesAux, if_neg hne]
      by_cases hg : keywordGate keywords (pyJoin " " lines) = true
      · simp [if_pos hg]
      · simp only [if_neg hg, List.map_cons]
        rw [ih (i0 + 1)]

/-! ### Helper lemmas: the dict model and the QA loops -/

theorem dictGet_dictInsert : ∀ (d : List (String × String)) (k v k' : String),
    dictGet (dictInsert d k v) k' = if k' = k then some v else dictGet d k' := by
  intro d
  induction d with
  | nil =>
    intro k v k'
    by_cases h : k' = k
    · simp [dictInsert, dictGet, h]
    · simp [dictInsert, dictGet, h, Ne.symm h]
  | cons p rest ih =>
    intro k v k'
    simp only [dictInsert]
    by_cases hp : p.1 = k
    · rw [if_pos hp]
      by_cases h : k' = k
      · simp [dictGet, h]
      · simp [dictGet, h, Ne.symm h, hp]
    · rw [if_neg hp]
      by_cases h : p.1 = k'
      · have hk : ¬k' = k := fun hh => hp (h.trans hh)
        simp [dictGet, h, hk]
      · simp [dictGet, h, ih]

theorem mem_dictInsert : ∀ (d : List (String × String)) (k v : String)
    (q : String × String), q ∈ dictInsert d k v → q = (k, v) ∨ q ∈ d := by
  intro d
  induction d with
  | nil => intro k v q hq; simpa [dictInsert] using hq
  | cons p rest ih =>
    intro k v q hq
    by_cases hp : p.1 = k
    · simp only [dictInsert, if_pos hp] at hq
      rcases List.mem_cons.mp hq with h | h
      · exact Or.inl h
      · exact Or.inr (List.mem_cons_of_mem _ h)
    · simp only [dictInsert, if_neg hp] at hq
      rcases List.mem_cons.mp hq with h | h
      · exact Or.inr (h ▸ List.mem_cons_self _ _)
      · rcases ih k v q h with h' | h'
        · exact Or.inl h'
        · exact Or.inr (List.mem_cons_of_mem _ h')

theorem dictGet_isSome_iff_mem_keys : ∀ (d : List (String × String)) (k : String),
    (dictGet d k).isSome = true ↔ k ∈ d.map Prod.fst := by
  intro d
  induction d with
  | nil => intro k; simp [dictGet]
  | cons p rest ih =>
    intro k
    by_cases hp : p.1 = k
    · simp [dictGet, hp]
    · simp [dictGet, hp, ih, Ne.symm hp]

theorem contains_iff_mem (l : List String) (b : String) :
    l.contains b = true ↔ b ∈ l := by
  induction l with
  | nil => simp
  | cons x xs ih => simp [List.contains] at *

theorem dictGet_foldl_selected (qa : String → String → Option (Option String))
    (questions : List (String × String)) (context : String) :
    ∀ (requested : List String) (acc : List (String × String)) (b : String),
      dictGet (requested.foldl (qaStepSelected qa questions context) acc) b =
        if b ∈ requested ∧ (dictGet questions b).isSome then
          (dictGet questions b).map (fun q => storeValue (qa q context))
        else dictGet acc b := by
  intro requested
  induction requested with
  | nil => intro acc b; simp
  | cons r rest ih =>
    intro acc b
    rw [List.foldl_cons, ih]
    by_cases hb : b ∈ rest ∧ (dictGet questions b).isSome
    · rw [if_pos hb, if_pos ⟨List.mem_cons_of_mem _ hb.1, hb.2⟩]
    · rw [if_neg hb]
      by_cases hbr : b = r
      · subst hbr
        cases hq : dictGet questions b with
        | none =>
          rw [if_neg ?_]
          · simp [qaStepSelected, hq]
          · rintro ⟨_, hsome⟩
            simp [hq] at hsome
        | some q =>
          rw [if_pos ⟨List.mem_cons_self _ _, by simp [hq]⟩]
          simp only [qaStepSelected, hq]
          rw [dictGet_dictInsert]
          simp [hq]
      · have hnotin : ¬(b ∈ r :: rest ∧ (dictGet questions b).isSome) := by
          rintro ⟨hmem, hsome⟩
          rcases List.mem_cons.mp hmem with h | h
          · exact hbr h
          · exact hb ⟨h, hsome⟩
        rw [if_neg hnotin]
        cases hq : dictGet questions r with
        | none => simp [qaStepSelected, hq]
        | some q =>
          simp only [qaStepSelected, hq]
          rw [dictGet_dictInsert, if_neg hbr]

theorem dictGet_extract_optimized (qa : String → String → Option (Option String))
    (requested : List String) (context : String) (b : String) :
    dictGet (extract_patient_info_optimized_qa qa requested context) b =
      if b ∈ requested ∧ (dictGet questions_v2 b).isSome then
        (dictGet questions_v2 b).map (fun q => storeValue (qa q context))
      else none := by
  rw [extract_patient_info_optimized_qa, dictGet_foldl_selected]
  by_cases hb : b ∈ requested ∧ (dictGet questions_v2 b).isSome
  · rw [if_pos hb, if_pos hb]
  · rw [if_neg hb, if_neg hb]; rfl

theorem dictGet_foldl_all_isSome (qa : String → String → Option (Option String))
    (context : String) :
    ∀ (questions : List (String × String)) (acc : List (String × String)) (b : String),
      (dictGet (questions.foldl (qaStepAll qa context) acc) b).isSome = true ↔
        (dictGet acc b).isSome = true ∨ b ∈ questions.map Prod.fst := by
  intro questions
  induction questions with
  | nil => intro acc b; simp
  | cons kq rest ih =>
    intro acc b
    rw [List.foldl_cons, ih]
    simp only [qaStepAll, dictGet_dictInsert, List.map_cons, List.mem_cons]
    by_cases hb : b = kq.1
    · simp [hb]
    · simp [hb]

theorem storeValue_ok (r : Option (Option String)) :
    storeValue r = "NULL" ∨ pyStripStr (storeValue r) ≠ "" := by
  cases r with
  | none => exact Or.inl rfl
  | some r' =>
    simp only [storeValue]
    by_cases h : pyStripStr (r'.getD "NULL") = ""
    · rw [if_pos h]; exact Or.inl rfl
    · rw [if_neg h]; exact Or.inr h

theorem values_foldl_selected (qa : String → String → Option (Option String))
    (questions : List (String × String)) (context : String) :
    ∀ (requested : List String) (acc : List (String × String)),
      (∀ p ∈ acc, p.2 = "NULL" ∨ pyStripStr p.2 ≠ "") →
      ∀ p ∈ requested.foldl (qaStepSelected qa questions context) acc,
        p.2 = "NULL" ∨ pyStripStr p.2 ≠ "" := by
  intro requested
  induction requested with
  | nil => intro acc hacc p hp; exact hacc p hp
  | cons r rest ih =>
    intro acc hacc p hp
    rw [List.foldl_cons] at hp
    refine ih _ ?_ p hp
    intro q hq
    simp only [qaStepSelected] at hq
    cases hqq : dictGet questions r with
    | none => rw [hqq] at hq; exact hacc q hq
    | some question =>
      rw [hqq] at hq
      rcases mem_dictInsert _ _ _ _ hq with h | h
      · subst h; exact storeValue_ok _
      · exact hacc q h

theorem values_foldl_all (qa : String → String → Option (Option String))
    (context : String) :
    ∀ (questions : List (String × String)) (acc : List (String × String)),
      (∀ p ∈ acc, p.2 = "NULL" ∨ pyStripStr p.2 ≠ "") →
      ∀ p ∈ questions.foldl (qaStepAll qa context) acc,
        p.2 = "NULL" ∨ pyStripStr p.2 ≠ "" := by
  intro questions
  induction questions with
  | nil => intro acc hacc p hp; exact hacc p hp
  | cons kq rest ih =>
    intro acc hacc p hp
    rw [List.foldl_cons] at hp
    refine ih _ ?_ p hp
    intro q hq
    simp only [qaStepAll] at hq
    rcases mem_dictInsert _ _ _ _ hq with h | h
    · subst h; exact storeValue_ok _
    · exact hacc q h

/-! ### Helper lemmas: the comma-split-and-strip parser -/

theorem pySplitAux_length (sep : Char) :
    ∀ (s acc : List Char), (pySplitAux sep s acc).length = s.count sep + 1 := by
  intro s
  induction s with
  | nil => intro acc; simp [pySplitAux]
  | cons c rest ih =>
    intro acc
    by_cases h : c = sep
    · simp [pySplitAux, h, ih, List.count_cons]
    · simp [pySplitAux, h, ih, List.count_cons]

theorem head?_dropWhile_not (p : Char → Bool) :
    ∀ (l : List Char) (c : Char), (l.dropWhile p).head? = some c → p c = false := by
  intro l
  induction l with
  | nil => intro c h; simp at h
  | cons a t ih =>
    intro c h
    rw [List.dropWhile_cons] at h
    by_cases hp : p a = true
    · rw [if_pos hp] at h; exact ih c h
    · rw [if_neg hp] at h
      obtain rfl : a = c := Option.some.inj (by simpa using h)
      simpa using hp

theorem getLast?_dropWhile (p : Char → Bool) :
    ∀ (w : List Char) (c : Char),
      (w.dropWhile p).getLast? = some c → w.getLast? = some c := by
  intro w
  induction w with
  | nil => intro c h; simp at h
  | cons a t ih =>
    intro c h
    rw [List.dropWhile_cons] at h
    by_cases hp : p a = true
    · rw [if_pos hp] at h
      have ht := ih c h
      have htne : t ≠ [] := by
        intro he
        subst he
        simp at ht
      obtain ⟨b, t', rfl⟩ := List.exists_cons_of_ne_nil htne
      rw [List.getLast?_cons_cons]
      exact ht
    · rw [if_neg hp] at h
      exact h

theorem pyStrip_head_not_ws (l : List Char) (c : Char)
    (h : (pyStrip l).head? = some c) : c.isWhitespace = false := by
  unfold pyStrip at h
  rw [List.head?_reverse] at h
  have h2 := getLast?_dropWhile Char.isWhitespace _ c h
  rw [List.getLast?_reverse] at h2
  exact head?_dropWhile_not Char.isWhitespace _ c h2

theorem pyStrip_getLast_not_ws (l : List Char) (c : Char)
    (h : (pyStrip l).getLast? = some c) : c.isWhitespace = false := by
  unfold pyStrip at h
  rw [List.getLast?_reverse] at h
  exact head?_dropWhile_not Char.isWhitespace _ c h

/-! ### Claims -/

/-- C1: Page selection.  For every finite sequence of pages with OCR'd
text (each page's OCR returned at least one line) and every non-empty
keyword list, a page is selected iff every keyword is a case-insensitive
substring of that page's text (AND semantics), and among satisfying pages
the one with the lowest page index is the one selected — no scoring or
fallback. -/
theorem c1_page_selection (keywords : List String) (pages : List (List String))
    (_hkw : keywords ≠ []) (hocr : ∀ lines ∈ pages, lines ≠ [])
    (i : Nat) (t : String) :
    scanPages keywords pages = some (i, t) ↔
      ∃ lines, pages.get? i = some lines ∧ t = pyJoin " " lines ∧
        (∀ k ∈ keywords, (pyLower k).data <:+: (pyLower t).data) ∧
        ∀ j, j < i → ∀ lines', pages.get? j = some lines' →
          ¬∀ k ∈ keywords, (pyLower k).data <:+: (pyLower (pyJoin " " lines')).data := by
  rw [scanPages, scanPagesAux_eq_spec_of_no_empty keywords pages 0 hocr,
    scanPagesSpecAux_eq_some_iff]
  constructor
  · rintro ⟨j, lines, hget, hi, ht, hgate, hmin⟩
    have hji : j = i := by omega
    subst hji
    refine ⟨lines, hget, ht, (keywordGate_iff _ _).mp hgate, ?_⟩
    intro j' hj' lines' hget' hall
    have hgf := hmin j' hj' lines' hget'
    have hgt := (keywordGate_iff _ _).mpr hall
    rw [hgt] at hgf
    simp at hgf
  · rintro ⟨lines, hget, ht, hall, hmin⟩
    refine ⟨i, lines, hget, by omega, ht, (keywordGate_iff _ _).mpr hall, ?_⟩
    intro j' hj' lines' hget'
    rw [Bool.eq_false_iff]
    intro hg
    exact hmin j' hj' lines' hget' ((keywordGate_iff _ _).mp hg)

/-- Witness for C1: the spec's §8 scenario — keywords `["UHID","Discharge"]`,
page 0 lacks "Discharge", page 1 contains both case-insensitively, so
page 1 is selected. -/
theorem c1_witness :
    scanPages ["UHID", "Discharge"] [["UHID 123"], ["uhid: 12345 discharge summary"]] =
      some (1, "uhid: 12345 discharge summary") := by
  refine (c1_page_selection ["UHID", "Discharge"]
    [["UHID 123"], ["uhid: 12345 discharge summary"]]
    (by decide) (by decide) 1 "uhid: 12345 discharge summary").mpr ?_
  refine ⟨["uhid: 12345 discharge summary"], by decide, by decide, by decide, ?_⟩
  intro j hj lines' hget' hall
  interval_cases j
  rw [List.get?_cons_zero] at hget'
  obtain rfl := Option.some.inj hget'
  have := hall "Discharge" (by decide)
  revert this
  decide

/-- C2 counterexample: the claim quantifies over every document and
keyword gate.  With the reachable degenerate gate `[""]` and a document
whose first page has no OCR lines (its text is empty), page 0 satisfies
the gate — every keyword is a case-insensitive substring of its empty
text — yet the code skips it and goes on to rasterize and OCR page 1
(the processed trace is `[0, 1]`, and page 1 is the one selected), so a
page after the first gate-satisfying page is rasterized and OCR'd. -/
theorem c2_counterexample :
    (∀ k ∈ ([""] : List String),
      (pyLower k).data <:+: (pyLower (pyJoin " " ([] : List String))).data) ∧
    (scanPagesAux [""] 0 [[], ["a"]]).processed = [0, 1] ∧
    scanPages [""] [[], ["a"]] = some (1, "a") := by decide

/-- C2 amended: for every document and every keyword gate containing at
least one non-empty keyword, when the scan returns page `i` the pages
rasterized-and-OCR'd are exactly pages `0..i` in ascending order —
nothing after the first satisfying page is processed — page `i` passes
the keyword gate and every earlier page (blank pages included, their
text being empty) fails it. -/
theorem c2_short_circuit (keywords : List String) (pages : List (List String))
    (hkw : ∃ k ∈ keywords, k ≠ "") (i : Nat) (t : String)
    (h : scanPages keywords pages = some (i, t)) :
    (scanPagesAux keywords 0 pages).processed = List.range (i + 1) ∧
    keywordGate keywords t = true ∧
    ∀ j, j < i → ∀ lines', pages.get? j = some lines' →
      keywordGate keywords (pyJoin " " lines') = false := by
  have hproc := scanPagesAux_processed_of_some keywords pages 0 i t h
  rw [scanPages, scanPagesAux_eq_spec_of_nonempty_keyword keywords hkw pages 0,
    scanPagesSpecAux_eq_some_iff] at h
  obtain ⟨j, lines, hget, hi, ht, hgate, hmin⟩ := h
  have hji : j = i := by omega
  subst hji
  refine ⟨?_, hgate, fun j' hj' lines' hget' => hmin j' hj' lines' hget'⟩
  rw [hproc, List.range_eq_range']
  norm_num

/-- Witness for C2 (amended): pages [P0 blank, P1 fails, P2 passes,
P3 would also pass] — exactly pages 0, 1 and 2 are rasterized/OCR'd. -/
theorem c2_witness :
    (scanPagesAux ["uhid"] 0 [[], ["alpha"], ["uhid summary"], ["uhid again"]]).processed =
      List.range 3 :=
  (c2_short_circuit ["uhid"] [[], ["alpha"], ["uhid summary"], ["uhid again"]]
    ⟨"uhid", by decide, by decide⟩ 2 "uhid summary" (by decide)).1

/-- C7 counterexample: the claim says each temporary page image is removed
on every exit path of that page's processing.  In the code no temp image
is ever removed: after scanning a two-page document (no gate match), both
`temp_page_1.png` and `temp_page_2.png` still exist. -/
theorem c7_counterexample :
    (scanPagesAux ["zzz"] 0 [["alpha"], ["beta"]]).tempFiles =
      ["temp_page_1.png", "temp_page_2.png"] ∧
    (scanPagesAux ["zzz"] 0 [["alpha"], ["beta"]]).tempFiles ≠ [] := by decide

/-- C7 amended: each processed page gets exactly one temp image (used for
that page's single OCR call — the processed indices are distinct), but no
temp file is ever removed: after the scan exactly one temp file per
processed page remains. -/
theorem c7_amended_files_accumulate (keywords : List String)
    (pages : List (List String)) :
    (scanPagesAux keywords 0 pages).tempFiles =
      (scanPagesAux keywords 0 pages).processed.map
        (fun page_num => tempImagePath (page_num + 1)) ∧
    (scanPagesAux keywords 0 pages).processed.Nodup := by
  refine ⟨scanPagesAux_tempFiles_eq keywords pages 0, ?_⟩
  rw [scanPagesAux_processed_range' keywords pages 0]
  exact List.nodup_range' _ _

/-- C9 counterexample: with the reachable degenerate keyword list `[""]`
(non-empty as a list) and a document whose single page has no OCR lines,
the code skips the page and selects nothing, while the spec's
yield-empty-text-then-gate behavior selects page 0 with empty text. -/
theorem c9_counterexample :
    scanPages [""] [[]] = none ∧ scanPagesSpec [""] [[]] = some (0, "") := by decide

/-- C9 amended: the code's bypassing of empty-OCR pages outside the gate
is equivalent to the spec's yield-empty-text-then-gate behavior for every
keyword list containing at least one non-empty keyword. -/
theorem c9_amended_equiv (keywords : List String) (h : ∃ k ∈ keywords, k ≠ "")
    (pages : List (List String)) :
    scanPages keywords pages = scanPagesSpec keywords pages :=
  scanPagesAux_eq_spec_of_nonempty_keyword keywords h pages 0

/-- Witness for C9 (amended): a document with an empty-OCR page followed
by a matching page — code and spec selector agree. -/
theorem c9_witness :
    scanPages ["uhid"] [[], ["uhid x"]] = scanPagesSpec ["uhid"] [[], ["uhid x"]] :=
  c9_amended_equiv ["uhid"] ⟨"uhid", by decide, by decide⟩ [[], ["uhid x"]]

/-- C3: Result-key contract.  In both extraction variants the returned
mapping contains exactly the keys in the intersection of the requested
attributes and the known question set; a requested attribute with no
configured question is silently omitted (neither NOT_FOUND nor an error). -/
theorem c3_result_keys (qa : String → String → Option (Option String))
    (requested : List String) (context : String) (b : String) :
    (b ∈ (extract_information_with_qa_model qa context requested).map Prod.fst ↔
      b ∈ questions_v1.map Prod.fst ∧ b ∈ requested) ∧
    (b ∈ (extract_patient_info_optimized_qa qa requested context).map Prod.fst ↔
      b ∈ requested ∧ b ∈ questions_v2.map Prod.fst) := by
  have hkeys : ∀ bb, bb ∈ (questions_v1.foldl (qaStepAll qa context) []).map Prod.fst ↔
      bb ∈ questions_v1.map Prod.fst := by
    intro bb
    rw [← dictGet_isSome_iff_mem_keys, dictGet_foldl_all_isSome]
    simp [dictGet]
  constructor
  · rw [extract_information_with_qa_model]
    constructor
    · intro hb
      obtain ⟨p, hp, rfl⟩ := List.mem_map.mp hb
      obtain ⟨hmem, hcont⟩ := List.mem_filter.mp hp
      exact ⟨(hkeys p.1).mp (List.mem_map.mpr ⟨p, hmem, rfl⟩),
        (contains_iff_mem _ _).mp hcont⟩
    · rintro ⟨hq, hreq⟩
      obtain ⟨p, hmem, hfst⟩ := List.mem_map.mp ((hkeys b).mpr hq)
      refine List.mem_map.mpr ⟨p, List.mem_filter.mpr ⟨hmem, ?_⟩, hfst⟩
      rw [hfst]
      exact (contains_iff_mem _ _).mpr hreq
  · rw [← dictGet_isSome_iff_mem_keys, ← dictGet_isSome_iff_mem_keys questions_v2 b,
      dictGet_extract_optimized qa requested context b]
    by_cases hb : b ∈ requested ∧ (dictGet questions_v2 b).isSome = true
    · rw [if_pos hb]
      simp [hb.1, hb.2]
    · rw [if_neg hb]
      simp only [Option.isSome_none, Bool.false_eq_true, false_iff]
      exact hb

/-- C4 counterexample: the claim says the QA answer is whitespace-trimmed
before being stored.  With a QA model answering `" 45 "`, the code stores
the raw `" 45 "` — `strip()` is only used as the emptiness test — so the
stored value differs from its trimmed form `"45"`. -/
theorem c4_counterexample :
    dictGet (extract_patient_info_optimized_qa (fun _ _ => some (some " 45 "))
      ["Age"] "Patient age 45") "Age" = some " 45 " ∧
    pyStripStr " 45 " = "45" ∧ (" 45 " : String) ≠ "45" := by decide

/-- C4 amended: for every attribute with a configured question, the QA
answer is stored untrimmed; trimming is used only to test emptiness — if
the answer's whitespace-trimmed form is empty, or the invocation fails for
any reason, the stored value is exactly the NOT_FOUND sentinel `"NULL"`. -/
theorem c4_amended_normalization (qa : String → String → Option (Option String))
    (requested : List String) (context attr question : String)
    (hmem : attr ∈ requested) (hq : dictGet questions_v2 attr = some question) :
    (qa question context = none →
      dictGet (extract_patient_info_optimized_qa qa requested context) attr =
        some "NULL") ∧
    (∀ ans, qa question context = some (some ans) → pyStripStr ans = "" →
      dictGet (extract_patient_info_optimized_qa qa requested context) attr =
        some "NULL") ∧
    (∀ ans, qa question context = some (some ans) → pyStripStr ans ≠ "" →
      dictGet (extract_patient_info_optimized_qa qa requested context) attr =
        some ans) := by
  have hsome : (dictGet questions_v2 attr).isSome = true := by simp [hq]
  have hbase := dictGet_extract_optimized qa requested context attr
  rw [if_pos ⟨hmem, hsome⟩, hq] at hbase
  refine ⟨?_, ?_, ?_⟩
  · intro herr
    rw [hbase]
    simp [storeValue, herr]
  · intro ans hans hstrip
    rw [hbase]
    simp [storeValue, hans, hstrip]
  · intro ans hans hstrip
    rw [hbase]
    simp [storeValue, hans, hstrip]

/-- Witness for C4 (amended): a QA model answering `" 45 "` (non-empty
after trimming) for the Age question — the raw answer is stored. -/
theorem c4_witness :
    dictGet (extract_patient_info_optimized_qa (fun _ _ => some (some " 45 "))
      ["Age"] "ctx") "Age" = some " 45 " :=
  (c4_amended_normalization (fun _ _ => some (some " 45 ")) ["Age"] "ctx" "Age"
    "What is the age of the patient? Provide only the number."
    (by decide) (by decide)).2.2 " 45 " rfl (by decide)

/-- C6: Per-attribute failure isolation.  A QA invocation error on one
attribute's question makes that attribute's value exactly `"NULL"`, while
every other requested attribute with a configured question still gets the
value determined solely by its own QA call. -/
theorem c6_per_attribute_isolation (qa : String → String → Option (Option String))
    (requested : List String) (context a question_a : String)
    (ha : a ∈ requested) (hqa : dictGet questions_v2 a = some question_a)
    (herr : qa question_a context = none) :
    dictGet (extract_patient_info_optimized_qa qa requested context) a =
      some "NULL" ∧
    ∀ b question_b, b ∈ requested → dictGet questions_v2 b = some question_b →
      dictGet (extract_patient_info_optimized_qa qa requested context) b =
        some (storeValue (qa question_b context)) := by
  constructor
  · have hbase := dictGet_extract_optimized qa requested context a
    rw [if_pos ⟨ha, by simp [hqa]⟩, hqa] at hbase
    rw [hbase]
    simp [storeValue, herr]
  · intro b question_b hb hqb
    have hbase := dictGet_extract_optimized qa requested context b
    rw [if_pos ⟨hb, by simp [hqb]⟩, hqb] at hbase
    rw [hbase]
    rfl

/-- Witness for C6: the QA model errors on the Age question but answers
the Doctor Name question; Age maps to `"NULL"` while Doctor Name is
extracted normally. -/
theorem c6_witness :
    dictGet (extract_patient_info_optimized_qa
      (fun q _ => if q = "What is the age of the patient? Provide only the number."
        then none else some (some "Dr. Rao"))
      ["Age", "Doctor Name"] "ctx") "Age" = some "NULL" ∧
    dictGet (extract_patient_info_optimized_qa
      (fun q _ => if q = "What is the age of the patient? Provide only the number."
        then none else some (some "Dr. Rao"))
      ["Age", "Doctor Name"] "ctx") "Doctor Name" = some "Dr. Rao" := by
  have h := c6_per_attribute_isolation
    (fun q _ => if q = "What is the age of the patient? Provide only the number."
      then none else some (some "Dr. Rao"))
    ["Age", "Doctor Name"] "ctx" "Age"
    "What is the age of the patient? Provide only the number."
    (by decide) (by decide) (by decide)
  refine ⟨h.1, ?_⟩
  have h2 := h.2 "Doctor Name"
    "What is the Doctor Name who is treating the patient, given in the context"
    (by decide) (by decide)
  rw [h2]
  decide

/-- C10: invariant on returned values.  In both extraction variants every
value of the returned mapping is either exactly the sentinel `"NULL"` or a
string whose whitespace-trimmed form is non-empty — for every context,
requested list and QA behavior, exceptions included. -/
theorem c10_value_invariant (qa : String → String → Option (Option String))
    (requested : List String) (context : String) :
    (∀ p ∈ extract_information_with_qa_model qa context requested,
      p.2 = "NULL" ∨ pyStripStr p.2 ≠ "") ∧
    (∀ p ∈ extract_patient_info_optimized_qa qa requested context,
      p.2 = "NULL" ∨ pyStripStr p.2 ≠ "") := by
  constructor
  · intro p hp
    rw [extract_information_with_qa_model] at hp
    have hp' := (List.mem_filter.mp hp).1
    exact values_foldl_all qa context questions_v1 [] (by simp) p hp'
  · intro p hp
    exact values_foldl_selected qa questions_v2 context requested [] (by simp) p hp

/-- Witness for C10: a concrete extraction containing the pair
`("Age", "45")`, whose value trims to a non-empty string. -/
theorem c10_witness :
    ("Age", "45") ∈ extract_patient_info_optimized_qa
      (fun _ _ => some (some "45")) ["Age"] "ctx" ∧
    ("45" = "NULL" ∨ pyStripStr "45" ≠ "") :=
  ⟨by decide, (c10_value_invariant (fun _ _ => some (some "45")) ["Age"] "ctx").2
    ("Age", "45") (by decide)⟩

/-- C5 counterexample: the claim says a ConfigNotFound is a distinct,
reportable condition the caller can distinguish from a NoMatchingPage
failure.  In the `/extract-patient-info/` endpoint both produce the very
same response — status 404 with message "No relevant information found." —
so the caller cannot distinguish them: hospital "ZZ" is unknown to the
store, hospital "AB" is known but no page passes its gate, and the two
responses are equal. -/
theorem c5_counterexample :
    extract_patient_info [("AB", "uhid")] (fun _ _ => some (some "x"))
      "ZZP1.pdf" "Age" [["hello"]] =
    extract_patient_info [("AB", "uhid")] (fun _ _ => some (some "x"))
      "ABP1.pdf" "Age" [["hello"]] ∧
    extract_patient_info [("AB", "uhid")] (fun _ _ => some (some "x"))
      "ZZP1.pdf" "Age" [["hello"]] =
      Resp.mk 404 (RespBody.msg "No relevant information found.") := by decide

/-- C5 amended: when the hospital identifier matches no config row,
`load_keywords_from_excel` returns the empty list and the endpoint answers
with the generic 404 "No relevant information found." response — the very
same response produced when the hospital is configured but no page matches
the gate, so ConfigNotFound is not distinguishable by the caller. -/
theorem c5_amended_collapsed (store : List (String × String))
    (qa : String → String → Option (Option String))
    (filename requested_attributes : String) (pages : List (List String))
    (hconfig : store.find? (fun row => row.1 == hospitalCodeOf filename) = none) :
    extract_patient_info store qa filename requested_attributes pages =
      Resp.mk 404 (RespBody.msg "No relevant information found.") ∧
    ∀ store' filename',
      load_keywords_from_excel store' (hospitalCodeOf filename') ≠ [] →
      scanPages (load_keywords_from_excel store' (hospitalCodeOf filename')) pages = none →
      extract_patient_info store' qa filename' requested_attributes pages =
        Resp.mk 404 (RespBody.msg "No relevant information found.") := by
  constructor
  · have hkw : load_keywords_from_excel store (hospitalCodeOf filename) = [] := by
      rw [load_keywords_from_excel, hconfig]
    rw [extract_patient_info, extract_text_from_pdf, hkw]
    simp
  · intro store' filename' hne hscan
    rw [extract_patient_info, extract_text_from_pdf]
    rw [if_neg (by simpa [List.isEmpty_iff] using hne), hscan]

/-- Witness for C5 (amended): hospital "ZZ" absent from a one-row store —
the endpoint answers with the generic 404 response. -/
theorem c5_witness :
    extract_patient_info [("AB", "uhid")] (fun _ _ => some (some "x"))
      "ZZP1.pdf" "Age" [["hello"]] =
      Resp.mk 404 (RespBody.msg "No relevant information found.") :=
  (c5_amended_collapsed [("AB", "uhid")] (fun _ _ => some (some "x"))
    "ZZP1.pdf" "Age" [["hello"]] (by decide)).1

/-- C8 counterexample: the claim says the parsed sequence contains no
empty-string elements (e.g. from a trailing comma).  The code only splits
and strips — a trailing comma yields a final empty element. -/
theorem c8_counterexample :
    pyParseCsv "UHID,Discharge," = ["UHID", "Discharge", ""] ∧
    "" ∈ pyParseCsv "UHID,Discharge," := by decide

/-- C8 amended: the parser splits the cell on commas — one piece per
comma-separated segment, in order — and whitespace-trims each piece
(no element has leading or trailing whitespace), but empty-string elements
may remain in the parsed sequence. -/
theorem c8_amended_parse (s : String) :
    (pyParseCsv s).length = s.data.count ',' + 1 ∧
    ∀ x ∈ pyParseCsv s,
      (∀ c, x.data.head? = some c → c.isWhitespace = false) ∧
      (∀ c, x.data.getLast? = some c → c.isWhitespace = false) := by
  constructor
  · rw [pyParseCsv, List.length_map, pySplit, pySplitAux_length]
  · intro x hx
    rw [pyParseCsv] at hx
    obtain ⟨piece, _hmem, rfl⟩ := List.mem_map.mp hx
    exact ⟨fun c hc => pyStrip_head_not_ws piece c hc,
      fun c hc => pyStrip_getLast_not_ws piece c hc⟩

/-- Witness for C8 (amended): parsing `" UHID , Discharge "` yields two
pieces (one comma) and the piece `"UHID"` starts with the non-whitespace
character U. -/
theorem c8_witness :
    (pyParseCsv " UHID , Discharge ").length =
      (" UHID , Discharge " : String).data.count ',' + 1 ∧
    ('U' : Char).isWhitespace = false :=
  ⟨(c8_amended_parse " UHID , Discharge ").1,
   ((c8_amended_parse " UHID , Discharge ").2 "UHID" (by decide)).1 'U' (by decide)⟩
